import Mathlib

/-!
Shallow embedding of the surf-website buoy pipeline
(`buoy_to_influx_sqlite.py`, `sqlite_to_json.py`, `export_24hr_timeseries.py`).

Modelling conventions:
* Python floats are modelled as `ℚ`; epoch seconds as `ℤ`.
* The numeric parser `float(...)` and the ISO-8601 timestamp parser
  `datetime.fromisoformat(...).timestamp()` are external library calls; they are
  modelled as parameters `fq : String → Option ℚ` and `pt : String → Option Int`
  (`none` = the call fails / raises).
* The SQLite table `buoy_observation` is modelled as a list of `Row`s in
  insertion order; the unique index `uniq_buoy_ts` on `(buoy_id,
  observation_time)` together with `INSERT OR IGNORE` is modelled by
  `insert_sqlite` refusing a row whose key is already present.
* The processed-files ledger (a Python `set`) is modelled as a duplicate-free
  `List String`; persisting it (`"\n".join(sorted(processed))`) is modelled by
  `ledgerLines` (the sorted line list of the written file).
-/

/-- The 13 canonical metric columns, in the stable `EXPECTED_FIELDS` order of
`buoy_to_influx_sqlite.py`. -/
def EXPECTED_FIELDS : List String :=
  ["wave_height_sig", "wave_height_peak", "wave_period_sig", "wave_period_avg",
   "wave_period_peak", "wave_direction_avg", "wave_direction_peak",
   "wind_speed", "wind_gust", "wind_direction", "air_temp", "sea_temp",
   "pressure"]

/-- One row of the `buoy_observation` table (the `id` autoincrement key and the
`recorded_at` wall-clock default column are omitted: no claim touches them). -/
structure Row where
  buoy_id : String
  observation_time : Int
  wave_height_sig : Option ℚ := none
  wave_height_peak : Option ℚ := none
  wave_period_sig : Option ℚ := none
  wave_period_avg : Option ℚ := none
  wave_period_peak : Option ℚ := none
  wave_direction_avg : Option ℚ := none
  wave_direction_peak : Option ℚ := none
  wind_speed : Option ℚ := none
  wind_gust : Option ℚ := none
  wind_direction : Option ℚ := none
  air_temp : Option ℚ := none
  sea_temp : Option ℚ := none
  pressure : Option ℚ := none
  source_file : Option String := none
deriving DecidableEq

/-- Column access by canonical name (the dynamic `row[field]` lookups of the
exporters, restricted to the metric columns). -/
def getField (r : Row) : String → Option ℚ
  | "wave_height_sig" => r.wave_height_sig
  | "wave_height_peak" => r.wave_height_peak
  | "wave_period_sig" => r.wave_period_sig
  | "wave_period_avg" => r.wave_period_avg
  | "wave_period_peak" => r.wave_period_peak
  | "wave_direction_avg" => r.wave_direction_avg
  | "wave_direction_peak" => r.wave_direction_peak
  | "wind_speed" => r.wind_speed
  | "wind_gust" => r.wind_gust
  | "wind_direction" => r.wind_direction
  | "air_temp" => r.air_temp
  | "sea_temp" => r.sea_temp
  | "pressure" => r.pressure
  | _ => none

/-- Two rows conflict when they agree on the unique-index key
`(buoy_id, observation_time)` (index `uniq_buoy_ts`). -/
def sameKey (a b : Row) : Bool :=
  decide (a.buoy_id = b.buoy_id ∧ a.observation_time = b.observation_time)

/-- `insert_sqlite`: `INSERT OR IGNORE` against the unique index
`uniq_buoy_ts(buoy_id, observation_time)` — a conflicting insert is a no-op
and raises no error. -/
def insert_sqlite (store : List Row) (r : Row) : List Row :=
  if store.any (sameKey r) then store else store ++ [r]

/-- `FIELD_MAP`: raw SWOB-ML element names → canonical columns, as the ordered
pair list of `buoy_to_influx_sqlite.py`. -/
def FIELD_MAP : List (String × String) :=
  [("sig_wave_hgt_pst20mts", "wave_height_sig"),
   ("avg_sig_wave_hgt_pst20mts", "wave_height_sig"),
   ("sig_wave_hgt_pst35mts_10mts_ago", "wave_height_sig"),
   ("pk_wave_hgt_pst20mts", "wave_height_peak"),
   ("pk_wave_hgt_pst35mts_10mts_ago", "wave_height_peak"),
   ("avg_wave_pd_pst20mts", "wave_period_avg"),
   ("pk_wave_pd_pst20mts", "wave_period_peak"),
   ("pk_wave_pd_pst35mts_10mts_ago", "wave_period_peak"),
   ("avg_wave_dir_pst20mts", "wave_direction_avg"),
   ("avg_pk_wave_dir_pst20mts", "wave_direction_peak"),
   ("avg_wnd_spd_pst10mts", "wind_speed"),
   ("avg_wnd_spd_pst10mts_1", "wind_speed"),
   ("max_avg_wnd_spd_pst10mts", "wind_gust"),
   ("max_avg_wnd_spd_pst10mts_1", "wind_gust"),
   ("max_wnd_spd_pst10mts", "wind_gust"),
   ("avg_wnd_dir_pst10mts", "wind_direction"),
   ("avg_air_temp_pst10mts", "air_temp"),
   ("avg_sea_sfc_temp_pst10mts", "sea_temp"),
   ("avg_stn_pres_pst10mts", "pressure")]

/-- One `<element name=... value=...>` of a SWOB-ML document; `value = none`
models a missing `value` attribute. -/
structure Elem where
  name : String
  value : Option String
deriving DecidableEq

/-- One raw XML document.  `path` is `str(xml_path)` (the ledger key), `fname`
is `xml_path.name` (stored in `source_file`).  `xmlOk = false` models
`ET.parse` raising on malformed XML.  `timeText` is the text of the
`gml:timePosition` element: `none` models "element absent or falsy text"
(the `t_elem is None or not t_elem.text` guard). -/
structure Doc where
  path : String
  fname : String
  xmlOk : Bool
  timeText : Option String
  elements : List Elem
deriving DecidableEq

/-- Python-dict assignment `d[k] = v` on an association list: the new binding
is prepended and shadows any previous one.  Downstream code only ever reads
the dict through key lookup, key membership and emptiness, for which this is
an exact model of the Python dict. -/
def dictInsert (l : List (String × ℚ)) (k : String) (v : ℚ) : List (String × ℚ) :=
  (k, v) :: l

/-- One iteration of the field-collection loop: if the element's name is in
`FIELD_MAP` and its value attribute is present and parses as a float, assign
`fields[FIELD_MAP[n]] = float(v)`; otherwise leave the dict alone
(a `ValueError` from `float` is swallowed by the `try`/`except pass`). -/
def fieldsStep (fq : String → Option ℚ) (acc : List (String × ℚ)) (e : Elem) :
    List (String × ℚ) :=
  match FIELD_MAP.lookup e.name, e.value with
  | some k, some s =>
    match fq s with
    | some q => dictInsert acc k q
    | none => acc
  | _, _ => acc

/-- The field-collection loop of `parse_and_collect_fields`: iterate the
elements in document order (later assignments overwrite earlier ones). -/
def fieldsOf (fq : String → Option ℚ) (es : List Elem) : List (String × ℚ) :=
  es.foldl (fieldsStep fq) []

/-- The contribution one element makes to canonical key `k` in the
field-collection loop: its parsed value when its raw name maps to `k` and its
value is present and parses, nothing otherwise.  (Specification-side notion,
used to state the last-write-wins property of `fieldsOf`.) -/
def contribOf (fq : String → Option ℚ) (k : String) (e : Elem) : Option ℚ :=
  match FIELD_MAP.lookup e.name, e.value with
  | some k2, some s => if k2 = k then fq s else none
  | _, _ => none

/-- Truthiness of `e.get("value")`: present and non-empty. -/
def truthy : Option String → Bool
  | some s => s ≠ ""
  | none => false

/-- Station-id resolution loop: break on the first truthy `wmo_id_extnd`,
else remember the last truthy `wmo_synop_id` seen so far; finally
`buoy_id or synop_id`. -/
def findBuoyId : List Elem → Option String → Option String
  | [], syn => syn
  | e :: rest, syn =>
    if e.name = "wmo_id_extnd" && truthy e.value then e.value
    else if e.name = "wmo_synop_id" && truthy e.value then findBuoyId rest e.value
    else findBuoyId rest syn

/-- Outcome of `parse_and_collect_fields`: `perror` models an uncaught
exception escaping to `main`'s `except` clause (unparsable timestamp);
`pskip` models `return None` (no timestamp element, no station id, or zero
extracted metrics). -/
inductive ParseResult where
  | perror : ParseResult
  | pskip : ParseResult
  | pok (buoy_id : String) (ts : Int) (fields : List (String × ℚ)) : ParseResult
deriving DecidableEq

/-- `parse_and_collect_fields`: timestamp, then station id, then mapped
fields.  A present-but-unparsable timestamp raises (`perror`); a missing
timestamp element, unresolvable station id, or empty field dict returns
`None` (`pskip`). -/
def parse_and_collect_fields (pt : String → Option Int) (fq : String → Option ℚ)
    (d : Doc) : ParseResult :=
  match d.timeText with
  | none => .pskip
  | some s =>
    match pt s with
    | none => .perror
    | some ts =>
      match findBuoyId d.elements none with
      | none => .pskip
      | some bid =>
        let fields := fieldsOf fq d.elements
        if fields = [] then .pskip else .pok bid ts fields

/-- Build the inserted row from the collected fields (the
`[c for c in EXPECTED_FIELDS if c in field_vals]` projection of
`insert_sqlite`). -/
def rowOf (bid : String) (ts : Int) (fv : List (String × ℚ)) (src : String) : Row :=
  { buoy_id := bid, observation_time := ts,
    wave_height_sig := fv.lookup "wave_height_sig",
    wave_height_peak := fv.lookup "wave_height_peak",
    wave_period_sig := fv.lookup "wave_period_sig",
    wave_period_avg := fv.lookup "wave_period_avg",
    wave_period_peak := fv.lookup "wave_period_peak",
    wave_direction_avg := fv.lookup "wave_direction_avg",
    wave_direction_peak := fv.lookup "wave_direction_peak",
    wind_speed := fv.lookup "wind_speed",
    wind_gust := fv.lookup "wind_gust",
    wind_direction := fv.lookup "wind_direction",
    air_temp := fv.lookup "air_temp",
    sea_temp := fv.lookup "sea_temp",
    pressure := fv.lookup "pressure",
    source_file := some src }

/-- Mutable state of one ingestion run: the SQLite store and the in-memory
`processed` set (kept duplicate-free, as a Python `set` is). -/
structure IngestState where
  store : List Row
  processed : List String
deriving DecidableEq

/-- One iteration of `main`'s document loop.  An already-processed path is
skipped untouched; an exception (`ET.parse` failure or unparsable timestamp)
is caught, logged, and leaves both store and ledger unchanged; a `None`
parse marks the path processed without storing; a successful parse writes
the row (`INSERT OR IGNORE`) and marks the path processed. -/
def mainStep (pt : String → Option Int) (fq : String → Option ℚ)
    (st : IngestState) (d : Doc) : IngestState :=
  if d.path ∈ st.processed then st
  else if d.xmlOk = false then st
  else
    match parse_and_collect_fields pt fq d with
    | .perror => st
    | .pskip => { st with processed := d.path :: st.processed }
    | .pok bid ts fields =>
      { store := insert_sqlite st.store (rowOf bid ts fields d.fname),
        processed := d.path :: st.processed }

/-- A whole ingestion run over a batch of documents. -/
def runIngest (pt : String → Option Int) (fq : String → Option ℚ)
    (st : IngestState) (docs : List Doc) : IngestState :=
  docs.foldl (mainStep pt fq) st

/-- The persisted ledger, as its list of lines:
`"\n".join(sorted(processed))` sorts the set before writing.  Reading the
file back (`read_text().splitlines()`) recovers exactly this list, since
paths contain no newline. -/
def ledgerLines (processed : List String) : List String :=
  processed.insertionSort (fun a b => a ≤ b)

/-- The `(buoy_id, observation_time)` uniqueness invariant of index
`uniq_buoy_ts`: no two stored rows share the key. -/
def UniqueKeys (store : List Row) : Prop :=
  store.Pairwise (fun a b => sameKey a b = false)

/-! ## Snapshot exporter (`sqlite_to_json.py`) -/

/-- The 16 compass points of `DIRS_16`. -/
def DIRS_16 : List String :=
  ["N", "NNE", "NE", "ENE", "E", "ESE", "SE", "SSE",
   "S", "SSW", "SW", "WSW", "W", "WNW", "NW", "NNW"]

/-- `degrees_to_cardinal` on a numeric degree value (`ℚ` models the float; the
`None`/NaN guards of the Python function cannot fire on `ℚ`):
`d %= 360.0; idx = int((d + 11.25) // 22.5); DIRS_16[idx % 16]`.
Python float `%` returns a representative in `[0, 360)`, i.e.
`d - 360*⌊d/360⌋`; `//` is floor division. -/
def degrees_to_cardinal (deg : ℚ) : String :=
  let d := deg - 360 * ⌊deg / 360⌋
  let idx : ℤ := ⌊(d + 45/4) / (45/2)⌋
  DIRS_16.getD (idx.toNat % 16) "N"

/-- `REALTIME_FIELDS` of the snapshot exporter. -/
def REALTIME_FIELDS : List String :=
  ["wind_speed", "wind_gust", "wind_direction", "air_temp", "sea_temp", "pressure"]

/-- `WAVE_FIELDS` of the snapshot exporter. -/
def WAVE_FIELDS : List String :=
  ["wave_height_sig", "wave_height_peak", "wave_period_sig", "wave_period_avg",
   "wave_period_peak", "wave_direction_avg", "wave_direction_peak"]

/-- A JSON value occurring in the snapshot object: a number, a string, or an
ISO-8601 rendering of an epoch timestamp (the rendering
`datetime.fromtimestamp(t, tz=utc).isoformat()` is injective in `t`, so we
keep the epoch value). -/
inductive Val where
  | num (q : ℚ) : Val
  | str (s : String) : Val
  | time (t : Int) : Val
deriving DecidableEq

/-- Running-maximum step: keep the strictly greater-timed row, first wins on
ties. -/
def maxStep (acc : Option Row) (r : Row) : Option Row :=
  match acc with
  | none => some r
  | some a => if a.observation_time < r.observation_time then some r else some a

/-- First row with the greatest `observation_time` in the list: the
`ORDER BY observation_time DESC LIMIT 1` selection (under the `uniq_buoy_ts`
invariant the maximum within one station is unique, so the tie-break never
matters). -/
def maxByTime (l : List Row) : Option Row :=
  l.foldl maxStep none

/-- The realtime `SELECT ... WHERE buoy_id = ? ORDER BY observation_time DESC
LIMIT 1` query. -/
def latestRowFor (store : List Row) (bid : String) : Option Row :=
  maxByTime (store.filter (fun r => r.buoy_id == bid))

/-- Row filter of the wave query: same station, inside
`[one_hour_ago, obs_time]`, and `wave_height_sig IS NOT NULL`. -/
def wavePred (bid : String) (lo hi : Int) (r : Row) : Bool :=
  r.buoy_id == bid && lo ≤ r.observation_time && r.observation_time ≤ hi
    && r.wave_height_sig.isSome

/-- The wave `SELECT ... ORDER BY observation_time DESC LIMIT 1` query of the
snapshot exporter. -/
def waveRowFor (store : List Row) (bid : String) (lo hi : Int) : Option Row :=
  maxByTime (store.filter (wavePred bid lo hi))

/-- The realtime part of the snapshot object: for each available realtime
field with a non-null value, emit it, converting wind speeds with
`kmh_to_knots` (modelled by the parameter `k2k`, since its
`round(x*0.539957, 1)` is float arithmetic). -/
def realtimeFields (k2k : ℚ → ℚ) (r : Row) : List (String × Val) :=
  REALTIME_FIELDS.filterMap
    (fun f =>
      (getField r f).map
        (fun v =>
          (f, Val.num (if f = "wind_speed" ∨ f = "wind_gust" then k2k v else v))))

/-- The wave part of the snapshot object: each non-null wave column of the
selected wave row. -/
def waveFields (w : Row) : List (String × Val) :=
  WAVE_FIELDS.filterMap (fun f => (getField w f).map (fun v => (f, Val.num v)))

/-- The derived-cardinal step: append `<f>_cardinal` when field `f` is present
in the object built so far (present values are never null in the model, and
`degrees_to_cardinal` always returns a non-empty string, so the Python
truthiness guards reduce to key presence). -/
def cardinalEntries (j : List (String × Val)) : List (String × Val) :=
  (match j.lookup "wind_direction" with
   | some (Val.num q) => [("wind_direction_cardinal", Val.str (degrees_to_cardinal q))]
   | _ => []) ++
  (match j.lookup "wave_direction_peak" with
   | some (Val.num q) => [("wave_direction_peak_cardinal", Val.str (degrees_to_cardinal q))]
   | _ => [])

/-- The snapshot object before the wave step: display name, primary
observation time, and the non-null realtime fields of the latest row. -/
def snapBase (k2k : ℚ → ℚ) (disp : String) (r : Row) : List (String × Val) :=
  [("name", Val.str disp), ("observation_time", Val.time r.observation_time)]
    ++ realtimeFields k2k r

/-- The wave step of the snapshot: when a wave row was selected, append its
observation time (only when it differs from the primary one) and its
non-null wave columns. -/
def snapWithWave (j1 : List (String × Val)) (rt : Int) : Option Row →
    List (String × Val)
  | none => j1
  | some w =>
    j1 ++ (if w.observation_time ≠ rt
            then [("wave_observation_time", Val.time w.observation_time)]
            else [])
       ++ waveFields w

/-- The snapshot object for a station whose latest row is `r`: base fields,
then the wave step against the window `[r.observation_time − 3600,
r.observation_time]`, then the derived cardinal labels. -/
def snapJson (k2k : ℚ → ℚ) (store : List Row) (bid disp : String) (r : Row) :
    List (String × Val) :=
  snapWithWave (snapBase k2k disp r) r.observation_time
      (waveRowFor store bid (r.observation_time - 3600) r.observation_time)
    ++ cardinalEntries
      (snapWithWave (snapBase k2k disp r) r.observation_time
        (waveRowFor store bid (r.observation_time - 3600) r.observation_time))

/-- The per-station snapshot object of `query_and_export` (all canonical
columns are assumed present in the schema, as `ensure_schema` guarantees):
`none` when the station has no stored observation at all. -/
def buoySnapshot (k2k : ℚ → ℚ) (store : List Row) (bid disp : String) :
    Option (List (String × Val)) :=
  match latestRowFor store bid with
  | none => none
  | some r => some (snapJson k2k store bid disp r)

/-! ## Timeseries exporter (`export_24hr_timeseries.py`) -/

/-- The eleven timeseries metrics of `ALL_METRICS` (keys only; display names
and units are static strings not needed by any claim). -/
def ALL_METRICS : List String :=
  ["wave_height_sig", "wave_height_peak", "wave_period_avg", "wave_period_peak",
   "wave_direction_peak", "wind_speed", "wind_gust", "wind_direction",
   "air_temp", "sea_temp", "pressure"]

/-- The high-frequency cadence class:
`buoy_id in ["4600304", "4600303"]`. -/
def highFreq (bid : String) : Bool :=
  bid == "4600304" || bid == "4600303"

/-- The WHERE clause of the per-metric timeseries query: station match,
inside the trailing window (`observation_time >= cutoff`), metric non-null,
and — for high-frequency stations only — `observation_time % 3600 = 0`. -/
def tsPred (bid metric : String) (cutoff : Int) (r : Row) : Bool :=
  r.buoy_id == bid && cutoff ≤ r.observation_time && (getField r metric).isSome
    && (!highFreq bid || r.observation_time % 3600 == 0)

/-- Row comparison used to model `ORDER BY observation_time ASC`. -/
def timeLE (a b : Row) : Prop := a.observation_time ≤ b.observation_time

instance : DecidableRel timeLE := fun a b => by
  unfold timeLE; infer_instance

instance : IsTotal Row timeLE :=
  ⟨fun a b => le_total a.observation_time b.observation_time⟩

instance : IsTrans Row timeLE := ⟨fun _ _ _ => le_trans⟩

/-- The rows returned by one per-metric timeseries query, in ascending
`observation_time` order. -/
def seriesRows (store : List Row) (bid metric : String) (cutoff : Int) : List Row :=
  (store.filter (tsPred bid metric cutoff)).insertionSort timeLE

/-- The emitted `(time, value)` series for one metric: wind metrics go through
`kmh_to_knots` (parameter `k2k`), all others through `round(value, 2)`
(parameter `rnd2`); both are float operations, modelled as parameters. -/
def seriesFor (k2k rnd2 : ℚ → ℚ) (store : List Row) (bid metric : String)
    (cutoff : Int) : List (Int × ℚ) :=
  (seriesRows store bid metric cutoff).map
    (fun r =>
      (r.observation_time,
        (if metric = "wind_speed" ∨ metric = "wind_gust" then k2k else rnd2)
          ((getField r metric).getD 0)))

/-! ## Lock handling (`export_24hr_timeseries.py`) -/

/-- `acquire_lock` over an abstract lock state (`some m` = lock file exists
with mtime `m`, `none` = absent) at wall-clock `now`: a lock older than 300
seconds is removed as stale and re-taken; a younger lock aborts the run
leaving the lock untouched; an absent lock is taken. -/
def acquire_lock (lock : Option Int) (now : Int) : Bool × Option Int :=
  match lock with
  | some m => if now - m > 300 then (true, some now) else (false, some m)
  | none => (true, some now)

/-- The `__main__` block of the timeseries exporter over an abstract output
artifact: on failed acquisition exit immediately (output and lock
untouched); otherwise run the export (`doE`) and release the lock. -/
def runExport {α : Type} (doE : α → α) (lock : Option Int) (now : Int)
    (out : α) : α × Option Int :=
  let acq := acquire_lock lock now
  if acq.1 then (doE out, none) else (out, acq.2)

/-! ## Ledger-flush crash model -/

/-- Crash states of `Path.write_text(new)` over a file currently holding
`old`: the call opens with truncation and writes sequentially, so a crash
can expose any prefix of `new` (including the empty file just after
truncation), or the untouched `old` before the truncation happens. -/
def writeTextCrashStates (old new : String) : List String :=
  old :: (List.range (new.data.length + 1)).map (fun k => String.mk (new.data.take k))

/-- Crash states of the temp-file-plus-rename pattern of `safe_json_write`
at the public path: the rename is atomic, so only the old or the new
content is ever visible there. -/
def renameCrashStates (old new : String) : List String :=
  [old, new]

/-- The string written by the ledger flush:
`"\n".join(sorted(processed))`. -/
def renderLedger (processed : List String) : String :=
  String.intercalate "\n" (ledgerLines processed)

/-- Atomicity of a write whose crash states are `states`: a crash exposes
either the last-known-good old content or the complete new content. -/
def AtomicWrite (old new : String) (states : List String) : Prop :=
  ∀ s ∈ states, s = old ∨ s = new

/-! ## Concrete sample inputs for witnesses -/

/-- Timestamp parser sample: `"T"` parses to epoch 1700000000, all else fails. -/
def samplePt : String → Option Int :=
  fun s => if s = "T" then some 1700000000 else none

/-- Float parser sample: `"7"` parses to 7, all else fails. -/
def sampleFq : String → Option ℚ :=
  fun s => if s = "7" then some 7 else none

/-- A well-formed document: timestamp, extended station id, one mapped metric. -/
def sampleDoc : Doc :=
  { path := "data/a.xml", fname := "a.xml", xmlOk := true,
    timeText := some "T",
    elements := [{ name := "wmo_id_extnd", value := some "4600146" },
                 { name := "avg_air_temp_pst10mts", value := some "7" }] }

/-- A document with a timestamp element whose text does not parse. -/
def sampleBadTimeDoc : Doc :=
  { path := "data/badtime.xml", fname := "badtime.xml", xmlOk := true,
    timeText := some "not-a-time",
    elements := [{ name := "wmo_id_extnd", value := some "4600146" },
                 { name := "avg_air_temp_pst10mts", value := some "7" }] }

/-- A document with a timestamp but no resolvable station identifier. -/
def sampleNoIdDoc : Doc :=
  { path := "data/noid.xml", fname := "noid.xml", xmlOk := true,
    timeText := some "T",
    elements := [{ name := "avg_air_temp_pst10mts", value := some "7" }] }

/-- Float parser sample with two parsable inputs. -/
def sampleFq2 : String → Option ℚ :=
  fun s => if s = "7" then some 7 else if s = "9" then some 9 else none

/-- Two raw wind-speed variants, both mapping to canonical `wind_speed`. -/
def sampleDupElems : List Elem :=
  [{ name := "avg_wnd_spd_pst10mts", value := some "7" },
   { name := "avg_wnd_spd_pst10mts_1", value := some "9" }]

/-- A latest (wind-bearing) row for the snapshot witnesses. -/
def sampleWindRow : Row :=
  { buoy_id := "4600146", observation_time := 100000, wind_speed := some 20 }

/-- A wave row 3660 s (61 min) older than the latest row. -/
def sampleWaveStale : Row :=
  { buoy_id := "4600146", observation_time := 96340, wave_height_sig := some 2 }

/-- A wave row 3540 s (59 min) older than the latest row, with a null
`wave_direction_avg`. -/
def sampleWaveFresh : Row :=
  { buoy_id := "4600146", observation_time := 96460,
    wave_height_sig := some 2, wave_period_peak := some 11 }

/-- An in-window row carrying `wave_period_peak` but a null
`wave_height_sig`. -/
def sampleWaveNullSig : Row :=
  { buoy_id := "4600146", observation_time := 96460,
    wave_period_peak := some 11 }

def sampleStoreStale : List Row := [sampleWindRow, sampleWaveStale]

def sampleStoreFresh : List Row := [sampleWindRow, sampleWaveFresh]

def sampleStoreNullSig : List Row := [sampleWindRow, sampleWaveNullSig]

/-- High-frequency-station samples: one on the hour boundary, one not. -/
def sampleStoreHF : List Row :=
  [{ buoy_id := "4600304", observation_time := 7200, air_temp := some 3 },
   { buoy_id := "4600304", observation_time := 7260, air_temp := some 4 }]

/-- Standard-station samples at the same instants. -/
def sampleStoreStd : List Row :=
  [{ buoy_id := "4600146", observation_time := 7200, air_temp := some 3 },
   { buoy_id := "4600146", observation_time := 7260, air_temp := some 4 }]

/-! ## Helper lemmas -/

lemma mainStep_of_processed {pt : String → Option Int} {fq : String → Option ℚ}
    {st : IngestState} {d : Doc} (h : d.path ∈ st.processed) :
    mainStep pt fq st d = st := by
  unfold mainStep
  rw [if_pos h]

lemma mainStep_of_pok {pt : String → Option Int} {fq : String → Option ℚ}
    {st : IngestState} {d : Doc} {bid : String} {ts : Int}
    {fields : List (String × ℚ)}
    (h1 : d.path ∉ st.processed) (h2 : d.xmlOk = true)
    (h3 : parse_and_collect_fields pt fq d = .pok bid ts fields) :
    mainStep pt fq st d =
      { store := insert_sqlite st.store (rowOf bid ts fields d.fname),
        processed := d.path :: st.processed } := by
  unfold mainStep
  rw [if_neg h1, if_neg (by simp [h2]), h3]

lemma mainStep_of_pskip {pt : String → Option Int} {fq : String → Option ℚ}
    {st : IngestState} {d : Doc}
    (h1 : d.path ∉ st.processed) (h2 : d.xmlOk = true)
    (h3 : parse_and_collect_fields pt fq d = .pskip) :
    mainStep pt fq st d = { st with processed := d.path :: st.processed } := by
  unfold mainStep
  rw [if_neg h1, if_neg (by simp [h2]), h3]

lemma mainStep_of_perror {pt : String → Option Int} {fq : String → Option ℚ}
    {st : IngestState} {d : Doc}
    (h1 : d.path ∉ st.processed) (h2 : d.xmlOk = true)
    (h3 : parse_and_collect_fields pt fq d = .perror) :
    mainStep pt fq st d = st := by
  unfold mainStep
  rw [if_neg h1, if_neg (by simp [h2]), h3]

lemma mainStep_processed_mono {pt : String → Option Int}
    {fq : String → Option ℚ} (st : IngestState) (d : Doc) {p : String}
    (h : p ∈ st.processed) : p ∈ (mainStep pt fq st d).processed := by
  unfold mainStep
  split
  · exact h
  · split
    · exact h
    · cases parse_and_collect_fields pt fq d with
      | perror => exact h
      | pskip => exact List.mem_cons_of_mem _ h
      | pok bid ts fields => exact List.mem_cons_of_mem _ h

lemma runIngest_processed_mono {pt : String → Option Int}
    {fq : String → Option ℚ} (st : IngestState) (docs : List Doc) {p : String}
    (h : p ∈ st.processed) : p ∈ (runIngest pt fq st docs).processed := by
  induction docs generalizing st with
  | nil => exact h
  | cons d rest ih => exact ih _ (mainStep_processed_mono st d h)

lemma ledgerLines_count (l : List String) (p : String) :
    (ledgerLines l).count p = l.count p :=
  (List.perm_insertionSort _ l).count_eq p

lemma floor_div360_eq_zero {d : ℚ} (h0 : 0 ≤ d) (h1 : d < 360) :
    ⌊d / 360⌋ = 0 := by
  rw [Int.floor_eq_zero_iff]
  constructor
  · positivity
  · rw [div_lt_one (by norm_num)]
    simpa using h1

lemma degrees_to_cardinal_bucket (d : ℚ) (k : ℕ) (hk : k < 16)
    (h0 : 0 ≤ d) (h1 : d < 360)
    (hlo : 45 / 2 * k - 45 / 4 ≤ d) (hhi : d < 45 / 2 * k + 45 / 4) :
    degrees_to_cardinal d = DIRS_16.getD k "N" := by
  unfold degrees_to_cardinal
  rw [floor_div360_eq_zero h0 h1]
  have hidx : ⌊(d + 45 / 4) / (45 / 2)⌋ = (k : ℤ) := by
    rw [Int.floor_eq_iff]
    constructor
    · rw [le_div_iff₀ (by norm_num : (0:ℚ) < 45 / 2)]
      push_cast
      linarith
    · rw [div_lt_iff₀ (by norm_num : (0:ℚ) < 45 / 2)]
      push_cast
      linarith
  simp only [mul_zero, sub_zero, Int.cast_zero]
  rw [hidx]
  simp [Int.toNat_ofNat, Nat.mod_eq_of_lt hk]

lemma degrees_to_cardinal_wrap_top (d : ℚ)
    (hlo : 45 / 2 * 16 - 45 / 4 ≤ d) (h1 : d < 360) :
    degrees_to_cardinal d = "N" := by
  unfold degrees_to_cardinal
  rw [floor_div360_eq_zero (by linarith) h1]
  have hidx : ⌊(d + 45 / 4) / (45 / 2)⌋ = (16 : ℤ) := by
    rw [Int.floor_eq_iff]
    constructor
    · rw [le_div_iff₀ (by norm_num : (0:ℚ) < 45 / 2)]
      push_cast
      linarith
    · rw [div_lt_iff₀ (by norm_num : (0:ℚ) < 45 / 2)]
      push_cast
      linarith
  simp only [mul_zero, sub_zero, Int.cast_zero]
  rw [hidx]
  rfl

lemma degrees_to_cardinal_add_360 (d : ℚ) :
    degrees_to_cardinal (d + 360) = degrees_to_cardinal d := by
  unfold degrees_to_cardinal
  have h1 : (d + 360) / 360 = d / 360 + 1 := by ring
  have h2 : ⌊d / 360 + 1⌋ = ⌊d / 360⌋ + 1 := Int.floor_add_one _
  rw [h1, h2]
  have h3 : d + 360 - 360 * ((⌊d / 360⌋ : ℚ) + 1) = d - 360 * (⌊d / 360⌋ : ℚ) := by
    ring
  push_cast
  rw [h3]

lemma sameKey_comm (a b : Row) : sameKey a b = sameKey b a := by
  simp only [sameKey, decide_eq_decide]
  constructor
  · rintro ⟨h1, h2⟩; exact ⟨h1.symm, h2.symm⟩
  · rintro ⟨h1, h2⟩; exact ⟨h1.symm, h2.symm⟩

lemma insert_sqlite_uniqueKeys {store : List Row} (r : Row)
    (h : UniqueKeys store) : UniqueKeys (insert_sqlite store r) := by
  unfold insert_sqlite
  split
  · exact h
  · rename_i hany
    rw [UniqueKeys, List.pairwise_append]
    refine ⟨h, List.pairwise_singleton _ _, ?_⟩
    intro a ha b hb
    have hb' : b = r := by simpa using hb
    subst hb'
    rw [sameKey_comm]
    by_contra hcon
    exact hany (List.any_eq_true.mpr ⟨a, ha, by simpa using hcon⟩)

lemma mainStep_store_uniqueKeys (pt : String → Option Int)
    (fq : String → Option ℚ) (st : IngestState) (d : Doc)
    (h : UniqueKeys st.store) : UniqueKeys (mainStep pt fq st d).store := by
  unfold mainStep
  split
  · exact h
  · split
    · exact h
    · cases parse_and_collect_fields pt fq d with
      | perror => exact h
      | pskip => exact h
      | pok bid ts fields => exact insert_sqlite_uniqueKeys _ h

lemma runIngest_store_uniqueKeys (pt : String → Option Int)
    (fq : String → Option ℚ) (st : IngestState) (docs : List Doc)
    (h : UniqueKeys st.store) : UniqueKeys (runIngest pt fq st docs).store := by
  induction docs generalizing st with
  | nil => exact h
  | cons d rest ih => exact ih _ (mainStep_store_uniqueKeys pt fq st d h)

/-! ## Claim C1 -/

/-- C1: a conflicting insert — one whose `(buoy_id, observation_time)` key is
already present — leaves the store unchanged (the `INSERT OR IGNORE` against
the `uniq_buoy_ts` unique index is a total no-op, raising no error), and every
ingestion run preserves the key-uniqueness invariant of the store. -/
theorem c1_key_uniqueness :
    (∀ (store : List Row) (r x : Row), x ∈ store →
      x.buoy_id = r.buoy_id → x.observation_time = r.observation_time →
      insert_sqlite store r = store) ∧
    (∀ (pt : String → Option Int) (fq : String → Option ℚ)
      (st : IngestState) (docs : List Doc),
      UniqueKeys st.store → UniqueKeys (runIngest pt fq st docs).store) := by
  constructor
  · intro store r x hx h1 h2
    unfold insert_sqlite
    rw [if_pos]
    exact List.any_eq_true.mpr ⟨x, hx, by simp [sameKey, h1, h2]⟩
  · exact runIngest_store_uniqueKeys

/-- C1 witness: a second document for the same `(station, instant)` with a
different metric value is discarded, and the empty run preserves uniqueness. -/
theorem c1_key_uniqueness_witness :
    insert_sqlite [{ buoy_id := "4600146", observation_time := 1700000000 }]
      { buoy_id := "4600146", observation_time := 1700000000,
        air_temp := some 7 }
      = [{ buoy_id := "4600146", observation_time := 1700000000 }] ∧
    UniqueKeys (runIngest (fun _ => none) (fun _ => none)
      { store := [], processed := [] } []).store := by
  constructor
  · exact c1_key_uniqueness.1 _ _
      { buoy_id := "4600146", observation_time := 1700000000 }
      (by simp) rfl rfl
  · exact c1_key_uniqueness.2 _ _ _ [] List.Pairwise.nil

/-! ## Claim C2 -/

/-- C2: ingesting the same source document twice — twice within one run, or
once per run across two runs separated by a ledger flush and reload — stores
exactly one observation row, and the persisted ledger holds the document's
source reference exactly once. -/
theorem c2_idempotent_ingest (pt : String → Option Int) (fq : String → Option ℚ)
    (d : Doc) (bid : String) (ts : Int) (fields : List (String × ℚ))
    (hx : d.xmlOk = true)
    (hp : parse_and_collect_fields pt fq d = .pok bid ts fields) :
    ((runIngest pt fq { store := [], processed := [] } [d, d]).store
        = [rowOf bid ts fields d.fname] ∧
      (ledgerLines (runIngest pt fq { store := [], processed := [] }
        [d, d]).processed).count d.path = 1) ∧
    ((runIngest pt fq
        { store := (runIngest pt fq { store := [], processed := [] } [d]).store,
          processed := ledgerLines (runIngest pt fq
            { store := [], processed := [] } [d]).processed } [d]).store
        = (runIngest pt fq { store := [], processed := [] } [d]).store ∧
      (ledgerLines (runIngest pt fq
        { store := (runIngest pt fq { store := [], processed := [] } [d]).store,
          processed := ledgerLines (runIngest pt fq
            { store := [], processed := [] } [d]).processed } [d]).processed).count
        d.path = 1) := by
  have hstep1 : mainStep pt fq { store := [], processed := [] } d =
      { store := [rowOf bid ts fields d.fname], processed := [d.path] } := by
    rw [mainStep_of_pok (by simp) hx hp]
    simp [insert_sqlite]
  have hone : runIngest pt fq { store := [], processed := [] } [d] =
      { store := [rowOf bid ts fields d.fname], processed := [d.path] } := by
    simp only [runIngest, List.foldl_cons, List.foldl_nil, hstep1]
  have hmem : d.path ∈ (IngestState.mk [rowOf bid ts fields d.fname]
      [d.path]).processed := by simp
  have htwo : runIngest pt fq { store := [], processed := [] } [d, d] =
      { store := [rowOf bid ts fields d.fname], processed := [d.path] } := by
    simp only [runIngest, List.foldl_cons, List.foldl_nil, hstep1,
      mainStep_of_processed hmem]
  have hll : ledgerLines [d.path] = [d.path] := rfl
  have hreload : runIngest pt fq
      { store := [rowOf bid ts fields d.fname], processed := [d.path] } [d]
      = { store := [rowOf bid ts fields d.fname], processed := [d.path] } := by
    simp only [runIngest, List.foldl_cons, List.foldl_nil,
      mainStep_of_processed hmem]
  refine ⟨⟨by rw [htwo], by rw [htwo, ledgerLines_count]; simp⟩, ?_, ?_⟩
  · rw [hone, hll, hreload]
  · rw [hone, hll, hreload, ledgerLines_count]
    simp

/-- C2 witness: the theorem applied to the concrete sample document. -/
theorem c2_idempotent_ingest_witness :
    ((runIngest samplePt sampleFq { store := [], processed := [] }
        [sampleDoc, sampleDoc]).store
      = [rowOf "4600146" 1700000000 [("air_temp", 7)] "a.xml"] ∧
      (ledgerLines (runIngest samplePt sampleFq { store := [], processed := [] }
        [sampleDoc, sampleDoc]).processed).count "data/a.xml" = 1) ∧
    ((runIngest samplePt sampleFq
        { store := (runIngest samplePt sampleFq
            { store := [], processed := [] } [sampleDoc]).store,
          processed := ledgerLines (runIngest samplePt sampleFq
            { store := [], processed := [] } [sampleDoc]).processed }
        [sampleDoc]).store
      = (runIngest samplePt sampleFq { store := [], processed := [] }
          [sampleDoc]).store ∧
      (ledgerLines (runIngest samplePt sampleFq
        { store := (runIngest samplePt sampleFq
            { store := [], processed := [] } [sampleDoc]).store,
          processed := ledgerLines (runIngest samplePt sampleFq
            { store := [], processed := [] } [sampleDoc]).processed }
        [sampleDoc]).processed).count "data/a.xml" = 1) :=
  c2_idempotent_ingest samplePt sampleFq sampleDoc "4600146" 1700000000
    [("air_temp", 7)] rfl (by decide)

/-! ## Claim C6 -/

/-- C6 (counterexample): a document whose timestamp element is present but
unparsable raises inside `main`'s `try`, is caught by the blanket `except`,
and is NOT added to the processed ledger — contradicting the claim that
every extraction failure is marked processed. -/
theorem c6_counterexample :
    (runIngest samplePt sampleFq { store := [], processed := [] }
      [sampleBadTimeDoc]).processed = [] := by decide

/-- C6 (amended): a document whose extraction returns no observation —
missing timestamp element, unresolvable station id, or zero extracted
metrics (`pskip`) — is added to the processed ledger with the store
untouched, and a processed reference is never re-extracted (its document is
skipped by every later step, and membership persists through any run);
but a document whose timestamp text fails to parse (`perror`) is NOT marked
processed and will be retried. -/
theorem c6_failed_extraction_ledger :
    (∀ (pt : String → Option Int) (fq : String → Option ℚ)
       (st : IngestState) (d : Doc),
      d.path ∉ st.processed → d.xmlOk = true →
      parse_and_collect_fields pt fq d = .pskip →
      (mainStep pt fq st d).store = st.store ∧
        d.path ∈ (mainStep pt fq st d).processed) ∧
    (∀ (pt : String → Option Int) (fq : String → Option ℚ)
       (st : IngestState) (d : Doc),
      d.path ∈ st.processed → mainStep pt fq st d = st) ∧
    (∀ (pt : String → Option Int) (fq : String → Option ℚ)
       (st : IngestState) (docs : List Doc) (p : String),
      p ∈ st.processed → p ∈ (runIngest pt fq st docs).processed) ∧
    (∀ (pt : String → Option Int) (fq : String → Option ℚ)
       (st : IngestState) (d : Doc),
      d.path ∉ st.processed → d.xmlOk = true →
      parse_and_collect_fields pt fq d = .perror →
      mainStep pt fq st d = st) := by
  refine ⟨fun pt fq st d h1 h2 h3 => ?_,
    fun pt fq st d h => mainStep_of_processed h,
    fun pt fq st docs p h => runIngest_processed_mono st docs h,
    fun pt fq st d h1 h2 h3 => mainStep_of_perror h1 h2 h3⟩
  rw [mainStep_of_pskip h1 h2 h3]
  exact ⟨rfl, List.mem_cons_self _ _⟩

/-- C6 witness: the amended behaviour on the concrete no-station-id document
(marked processed, store untouched), on an already-processed path (skipped),
and on the unparsable-timestamp document (not marked processed). -/
theorem c6_failed_extraction_ledger_witness :
    ((mainStep samplePt sampleFq { store := [], processed := [] }
        sampleNoIdDoc).store = [] ∧
      "data/noid.xml" ∈ (mainStep samplePt sampleFq
        { store := [], processed := [] } sampleNoIdDoc).processed) ∧
    mainStep samplePt sampleFq { store := [], processed := ["data/noid.xml"] }
      sampleNoIdDoc = { store := [], processed := ["data/noid.xml"] } ∧
    "data/noid.xml" ∈ (runIngest samplePt sampleFq
      { store := [], processed := ["data/noid.xml"] } [sampleDoc]).processed ∧
    mainStep samplePt sampleFq { store := [], processed := [] }
      sampleBadTimeDoc = { store := [], processed := [] } :=
  ⟨c6_failed_extraction_ledger.1 samplePt sampleFq _ sampleNoIdDoc
      (by decide) rfl (by decide),
    c6_failed_extraction_ledger.2.1 samplePt sampleFq _ sampleNoIdDoc (by decide),
    c6_failed_extraction_ledger.2.2.1 samplePt sampleFq _ [sampleDoc]
      "data/noid.xml" (by decide),
    c6_failed_extraction_ledger.2.2.2 samplePt sampleFq _ sampleBadTimeDoc
      (by decide) rfl (by decide)⟩

/-! ## Claim C3 -/

/-- C3 (counterexample): the claim states `degrees_to_cardinal 100 = "ESE"`,
but the code computes bucket index `⌊(100 + 11.25) / 22.5⌋ = 4`, i.e. `"E"`
(`"ESE"` is bucket 5, which starts at 101.25°). -/
theorem c3_counterexample :
    degrees_to_cardinal 100 = "E" ∧ ("E" : String) ≠ "ESE" := by
  constructor
  · have h := degrees_to_cardinal_bucket 100 4 (by norm_num) (by norm_num)
      (by norm_num) (by norm_num) (by norm_num)
    simpa [DIRS_16] using h
  · decide

/-- C3 (amended): `degrees_to_cardinal` buckets a degree value with width
22.5°, a +11.25° bucket-centre offset before floor division, and a modulo-16
wrap: on `[0, 360)` a value in bucket `k` (i.e. in
`[22.5k − 11.25, 22.5k + 11.25)`) yields the `k`-th compass point, the top
slice `[348.75, 360)` wraps back to `"N"`, and the function is periodic with
period 360.  In particular 0 ↦ N, 90 ↦ E, 359 ↦ N and 100 ↦ E (not ESE as
the claim stated). -/
theorem c3_cardinal_conversion :
    (degrees_to_cardinal 0 = "N" ∧ degrees_to_cardinal 90 = "E" ∧
     degrees_to_cardinal 359 = "N" ∧ degrees_to_cardinal 100 = "E") ∧
    (∀ (d : ℚ) (k : ℕ), k < 16 → 0 ≤ d → d < 360 →
      45 / 2 * k - 45 / 4 ≤ d → d < 45 / 2 * k + 45 / 4 →
      degrees_to_cardinal d = DIRS_16.getD k "N") ∧
    (∀ d : ℚ, 45 / 2 * 16 - 45 / 4 ≤ d → d < 360 → degrees_to_cardinal d = "N") ∧
    (∀ d : ℚ, degrees_to_cardinal (d + 360) = degrees_to_cardinal d) := by
  refine ⟨⟨?_, ?_, ?_, ?_⟩,
    fun d k hk h0 h1 hlo hhi => degrees_to_cardinal_bucket d k hk h0 h1 hlo hhi,
    fun d hlo h1 => degrees_to_cardinal_wrap_top d hlo h1,
    degrees_to_cardinal_add_360⟩
  · have h := degrees_to_cardinal_bucket 0 0 (by norm_num) (by norm_num)
      (by norm_num) (by norm_num) (by norm_num)
    simpa [DIRS_16] using h
  · have h := degrees_to_cardinal_bucket 90 4 (by norm_num) (by norm_num)
      (by norm_num) (by norm_num) (by norm_num)
    simpa [DIRS_16] using h
  · exact degrees_to_cardinal_wrap_top 359 (by norm_num) (by norm_num)
  · have h := degrees_to_cardinal_bucket 100 4 (by norm_num) (by norm_num)
      (by norm_num) (by norm_num) (by norm_num)
    simpa [DIRS_16] using h

/-- C3 witness: the bucket characterization applied at 110° (bucket 5, ESE)
and the wrap clause applied at 350°. -/
theorem c3_cardinal_conversion_witness :
    degrees_to_cardinal 110 = "ESE" ∧ degrees_to_cardinal 350 = "N" := by
  constructor
  · have h := c3_cardinal_conversion.2.1 110 5 (by norm_num) (by norm_num)
      (by norm_num) (by norm_num) (by norm_num)
    simpa [DIRS_16] using h
  · exact c3_cardinal_conversion.2.2.1 350 (by norm_num) (by norm_num)

/-! ## Claim C8 -/

lemma lookup_dictInsert_self (l : List (String × ℚ)) (k : String) (v : ℚ) :
    (dictInsert l k v).lookup k = some v := by
  simp [dictInsert, List.lookup]

lemma lookup_dictInsert_ne (l : List (String × ℚ)) {k k2 : String}
    (h : k2 ≠ k) (v : ℚ) : (dictInsert l k v).lookup k2 = l.lookup k2 := by
  have hb : (k2 == k) = false := by simpa using h
  simp [dictInsert, List.lookup, hb]

lemma fieldsStep_lookup_of_contrib_some {fq : String → Option ℚ} {k : String}
    {e : Elem} {q : ℚ} (h : contribOf fq k e = some q)
    (acc : List (String × ℚ)) : (fieldsStep fq acc e).lookup k = some q := by
  unfold contribOf at h
  unfold fieldsStep
  rcases hl : FIELD_MAP.lookup e.name with _ | k2 <;>
    simp only [hl] at h ⊢
  · exact absurd h (by simp)
  · rcases hv : e.value with _ | s <;> simp only [hv] at h ⊢
    · exact absurd h (by simp)
    · by_cases hkk : k2 = k
      · subst hkk
        rw [if_pos rfl] at h
        simp only [h]
        exact lookup_dictInsert_self _ _ _
      · rw [if_neg hkk] at h
        exact absurd h (by simp)

lemma fieldsStep_lookup_of_contrib_none {fq : String → Option ℚ} {k : String}
    {e : Elem} (h : contribOf fq k e = none) (acc : List (String × ℚ)) :
    (fieldsStep fq acc e).lookup k = acc.lookup k := by
  unfold contribOf at h
  unfold fieldsStep
  rcases hl : FIELD_MAP.lookup e.name with _ | k2
  · simp only [hl]
  · rcases hv : e.value with _ | s
    · simp only [hl, hv]
    · simp only [hl, hv] at h ⊢
      by_cases hkk : k2 = k
      · subst hkk
        rw [if_pos rfl] at h
        simp only [h]
      · rcases hf : fq s with _ | q <;> simp only [hf]
        exact lookup_dictInsert_ne acc (fun hc => hkk hc.symm) q

lemma fieldsOf_foldl_lookup (fq : String → Option ℚ) (k : String)
    (es : List Elem) (acc : List (String × ℚ)) :
    (es.foldl (fieldsStep fq) acc).lookup k
      = ((es.filterMap (contribOf fq k)).getLast?).or (acc.lookup k) := by
  induction es generalizing acc with
  | nil => simp
  | cons e rest ih =>
    rw [List.foldl_cons, ih, List.filterMap_cons]
    rcases hc : contribOf fq k e with _ | q
    · rw [fieldsStep_lookup_of_contrib_none hc]
    · rw [fieldsStep_lookup_of_contrib_some hc]
      rcases hg : (rest.filterMap (contribOf fq k)).getLast? with _ | x
      · have : (q :: rest.filterMap (contribOf fq k)).getLast? = some q := by
          rw [List.getLast?_cons, hg]
          rfl
        rw [this]
        rfl
      · have : (q :: rest.filterMap (contribOf fq k)).getLast? = some x := by
          rw [List.getLast?_cons, hg]
          rfl
        rw [this]
        rfl

lemma filterMap_isSome_getLast {α β : Type} (l : List α) (f : α → Option β)
    (h : ∀ x ∈ l, (f x).isSome) :
    (l.filterMap f).getLast? = l.getLast?.bind f := by
  induction l with
  | nil => rfl
  | cons a rest ih =>
    rcases hf : f a with _ | b
    · exact absurd (h a (by simp)) (by simp [hf])
    · rw [List.filterMap_cons_some hf]
      have ih2 := ih (fun x hx => h x (by simp [hx]))
      rcases hg : rest.getLast? with _ | x
      · have hre : rest = [] := by
          cases rest with
          | nil => rfl
          | cons y ys => simp [List.getLast?_cons] at hg
        subst hre
        simp [hf]
      · have hx : x ∈ rest := List.mem_of_mem_getLast? hg
        rw [hg] at ih2
        have hfx := h x (by simp [hx])
        rcases hfx2 : f x with _ | y
        · exact absurd hfx (by simp [hfx2])
        · simp only [Option.some_bind] at ih2
          rw [hfx2] at ih2
          rw [List.getLast?_cons, ih2]
          have hlast : (a :: rest).getLast? = some x := by
            rw [List.getLast?_cons, hg]
            rfl
          rw [hlast]
          simp [hfx2]

lemma contribOf_eq_filtered (fq : String → Option ℚ) (k : String) (x : Elem) :
    contribOf fq k x =
      if (FIELD_MAP.lookup x.name == some k) then x.value.bind fq else none := by
  unfold contribOf
  rcases hl : FIELD_MAP.lookup x.name with _ | k2
  · rfl
  · rcases hv : x.value with _ | s
    · by_cases hkk : k2 = k <;> simp [hkk]
    · by_cases hkk : k2 = k <;> simp [hkk]

/-- C8: within one document, the value extracted for a canonical metric key is
the value of the last element in document order that contributes to that key
(raw name mapped to the key, value present and parsable); in particular, when
every element whose raw name maps to the key has a parsable value, the last
such element in document order wins.  `fieldsOf` folds over the element list
itself, so the result depends only on document order, never on any
mapping-table iteration order. -/
theorem c8_document_order_last_wins :
    (∀ (fq : String → Option ℚ) (es : List Elem) (k : String),
      (fieldsOf fq es).lookup k = (es.filterMap (contribOf fq k)).getLast?) ∧
    (∀ (fq : String → Option ℚ) (es : List Elem) (k : String) (e : Elem),
      (es.filter (fun x => FIELD_MAP.lookup x.name == some k)).getLast? = some e →
      (∀ x ∈ es, FIELD_MAP.lookup x.name = some k → (x.value.bind fq).isSome) →
      (fieldsOf fq es).lookup k = e.value.bind fq) := by
  have h1 : ∀ (fq : String → Option ℚ) (es : List Elem) (k : String),
      (fieldsOf fq es).lookup k = (es.filterMap (contribOf fq k)).getLast? := by
    intro fq es k
    rw [fieldsOf, fieldsOf_foldl_lookup]
    simp [List.lookup]
  refine ⟨h1, fun fq es k e hlast hall => ?_⟩
  rw [h1]
  have hfm : es.filterMap (contribOf fq k)
      = (es.filter (fun x => FIELD_MAP.lookup x.name == some k)).filterMap
          (fun x => x.value.bind fq) := by
    rw [List.filterMap_filter]
    exact List.filterMap_congr (fun x _ => contribOf_eq_filtered fq k x)
  rw [hfm, filterMap_isSome_getLast _ _ ?_, hlast]
  · rfl
  · intro x hx
    rw [List.mem_filter] at hx
    exact hall x hx.1 (by simpa using hx.2)

/-- C8 witness: two raw wind-speed variants in one document; the later one
(value 9) wins over the earlier one (value 7). -/
theorem c8_document_order_last_wins_witness :
    (fieldsOf sampleFq2 sampleDupElems).lookup "wind_speed" = some 9 :=
  (c8_document_order_last_wins.2 sampleFq2 sampleDupElems "wind_speed"
      { name := "avg_wnd_spd_pst10mts_1", value := some "9" }
      (by decide) (by decide)).trans (by decide)

/-! ## Claim C9 -/

/-- C9: if the lock file exists and its age (`now − mtime`) is at most 300
seconds, the run exits immediately, leaving the output artifact and the lock
file untouched; if its age exceeds 300 seconds the stale lock is removed and
the run proceeds (the export runs, and the re-taken lock is released at the
end). -/
theorem c9_lock_staleness :
    (∀ (α : Type) (doE : α → α) (m now : Int) (out : α),
      now - m ≤ 300 →
      runExport doE (some m) now out = (out, some m)) ∧
    (∀ (α : Type) (doE : α → α) (m now : Int) (out : α),
      now - m > 300 →
      runExport doE (some m) now out = (doE out, none)) := by
  constructor
  · intro α doE m now out h
    have hc : ¬(300 < now - m) := not_lt.mpr h
    simp [runExport, acquire_lock, hc]
  · intro α doE m now out h
    simp [runExport, acquire_lock, h]

/-- C9 witness: a 100-second-old lock aborts the run without side effects; a
301-second-old lock is reclaimed and the export runs. -/
theorem c9_lock_staleness_witness :
    runExport Nat.succ (some 1000) 1100 5 = (5, some 1000) ∧
    runExport Nat.succ (some 1000) 1301 5 = (6, none) :=
  ⟨c9_lock_staleness.1 Nat Nat.succ 1000 1100 5 (by norm_num),
    c9_lock_staleness.2 Nat Nat.succ 1000 1301 5 (by norm_num)⟩

/-! ## Claim C7 -/

/-- C7 (counterexample): the ledger flush is a plain
`processed_file.write_text(...)` — a truncate-then-write, not a
temp-file-plus-rename.  With previous ledger content `"prev.xml"` and new
content `renderLedger ["data/a.xml"]`, the crash state captured just after
truncation (the empty file) is neither the old nor the new content, so the
flush is not atomic. -/
theorem c7_counterexample :
    ¬ AtomicWrite "prev.xml" (renderLedger ["data/a.xml"])
      (writeTextCrashStates "prev.xml" (renderLedger ["data/a.xml"])) := by
  intro h
  have hmem : ("" : String) ∈
      writeTextCrashStates "prev.xml" (renderLedger ["data/a.xml"]) := by decide
  rcases h "" hmem with h1 | h1
  · exact absurd h1 (by decide)
  · exact absurd h1 (by decide)

/-- C7 (amended): the ledger flush (`write_text` of the sorted processed set)
is NOT atomic with respect to partial writes: whenever the previous ledger
content and the newly rendered content are both non-empty, a mid-write crash
can leave a state (the truncated empty file) that is neither the
last-known-good content nor the new content.  By contrast the exporters'
`safe_json_write` temp-file-plus-rename pattern IS atomic: a crash exposes
only the old or the new artifact. -/
theorem c7_ledger_flush_not_atomic :
    (∀ (old : String) (processed : List String),
      old ≠ "" → renderLedger processed ≠ "" →
      ¬ AtomicWrite old (renderLedger processed)
        (writeTextCrashStates old (renderLedger processed))) ∧
    (∀ old new : String, AtomicWrite old new (renameCrashStates old new)) := by
  constructor
  · intro old processed hold hnew hatomic
    have hmem : ("" : String) ∈
        writeTextCrashStates old (renderLedger processed) := by
      refine List.mem_cons.mpr (Or.inr ?_)
      have h0 : (0 : ℕ) ∈ List.range ((renderLedger processed).data.length + 1) :=
        List.mem_range.mpr (Nat.succ_pos _)
      exact List.mem_map_of_mem (fun k => String.mk ((renderLedger processed).data.take k)) h0
    rcases hatomic "" hmem with h1 | h1
    · exact hold h1.symm
    · exact hnew h1.symm
  · intro old new s hs
    simpa [renameCrashStates] using hs

/-- C7 witness: the non-atomicity applied at concrete contents, and the
atomicity of the rename pattern at concrete contents. -/
theorem c7_ledger_flush_not_atomic_witness :
    (¬ AtomicWrite "prev.xml" (renderLedger ["data/b.xml"])
      (writeTextCrashStates "prev.xml" (renderLedger ["data/b.xml"]))) ∧
    AtomicWrite "prev.xml" "data/b.xml"
      (renameCrashStates "prev.xml" "data/b.xml") :=
  ⟨c7_ledger_flush_not_atomic.1 "prev.xml" ["data/b.xml"] (by decide) (by decide),
    c7_ledger_flush_not_atomic.2 "prev.xml" "data/b.xml"⟩

/-! ## Snapshot query lemmas -/

lemma maxByTime_go (l : List Row) (a : Row) :
    ∃ r, l.foldl maxStep (some a) = some r ∧ (r = a ∨ r ∈ l) ∧
      a.observation_time ≤ r.observation_time ∧
      ∀ x ∈ l, x.observation_time ≤ r.observation_time := by
  induction l generalizing a with
  | nil => exact ⟨a, rfl, Or.inl rfl, le_refl _, by simp⟩
  | cons b rest ih =>
    by_cases hb : a.observation_time < b.observation_time
    · obtain ⟨r, h1, h2, h3, h4⟩ := ih b
      refine ⟨r, ?_, ?_, ?_, ?_⟩
      · rw [List.foldl_cons]
        simpa [maxStep, hb] using h1
      · rcases h2 with rfl | hr
        · exact Or.inr (List.mem_cons_self _ _)
        · exact Or.inr (List.mem_cons_of_mem _ hr)
      · exact le_trans (le_of_lt hb) h3
      · intro x hx
        rcases List.mem_cons.mp hx with rfl | hx2
        · exact h3
        · exact h4 x hx2
    · obtain ⟨r, h1, h2, h3, h4⟩ := ih a
      refine ⟨r, ?_, ?_, h3, ?_⟩
      · rw [List.foldl_cons]
        simpa [maxStep, hb] using h1
      · rcases h2 with rfl | hr
        · exact Or.inl rfl
        · exact Or.inr (List.mem_cons_of_mem _ hr)
      · intro x hx
        rcases List.mem_cons.mp hx with rfl | hx2
        · exact le_trans (not_lt.mp hb) h3
        · exact h4 x hx2

lemma maxByTime_none_iff (l : List Row) : maxByTime l = none ↔ l = [] := by
  cases l with
  | nil => simp [maxByTime]
  | cons a rest =>
    obtain ⟨r, h1, _, _, _⟩ := maxByTime_go rest a
    constructor
    · intro h
      rw [maxByTime, List.foldl_cons] at h
      have ha : maxStep none a = some a := rfl
      rw [ha, h1] at h
      cases h
    · intro h
      cases h

lemma maxByTime_spec {l : List Row} {r : Row} (h : maxByTime l = some r) :
    r ∈ l ∧ ∀ x ∈ l, x.observation_time ≤ r.observation_time := by
  cases l with
  | nil => cases h
  | cons a rest =>
    obtain ⟨q, h1, h2, h3, h4⟩ := maxByTime_go rest a
    rw [maxByTime, List.foldl_cons] at h
    have ha : maxStep none a = some a := rfl
    rw [ha, h1] at h
    injection h with h
    subst h
    refine ⟨?_, ?_⟩
    · rcases h2 with rfl | hr
      · exact List.mem_cons_self _ _
      · exact List.mem_cons_of_mem _ hr
    · intro x hx
      rcases List.mem_cons.mp hx with rfl | hx2
      · exact h3
      · exact h4 x hx2

lemma wavePred_iff (bid : String) (lo hi : Int) (x : Row) :
    wavePred bid lo hi x = true ↔
      x.buoy_id = bid ∧ lo ≤ x.observation_time ∧ x.observation_time ≤ hi ∧
        x.wave_height_sig ≠ none := by
  simp [wavePred, Option.isSome_iff_ne_none, and_assoc]

lemma waveRowFor_none_iff (store : List Row) (bid : String) (lo hi : Int) :
    waveRowFor store bid lo hi = none ↔
      ∀ x ∈ store, x.buoy_id = bid → lo ≤ x.observation_time →
        x.observation_time ≤ hi → x.wave_height_sig = none := by
  rw [waveRowFor, maxByTime_none_iff, List.filter_eq_nil_iff]
  constructor
  · intro h x hx hbid hlo hhi
    have hnp := h x hx
    rw [wavePred_iff] at hnp
    by_contra hne
    exact hnp ⟨hbid, hlo, hhi, hne⟩
  · intro h x hx
    rw [wavePred_iff]
    rintro ⟨hbid, hlo, hhi, hne⟩
    exact hne (h x hx hbid hlo hhi)

lemma waveRowFor_some_spec {store : List Row} {bid : String} {lo hi : Int}
    {w : Row} (h : waveRowFor store bid lo hi = some w) :
    w ∈ store ∧ w.buoy_id = bid ∧ lo ≤ w.observation_time ∧
      w.observation_time ≤ hi ∧ w.wave_height_sig ≠ none ∧
      ∀ x ∈ store, x.buoy_id = bid → lo ≤ x.observation_time →
        x.observation_time ≤ hi → x.wave_height_sig ≠ none →
        x.observation_time ≤ w.observation_time := by
  obtain ⟨hmem, hmax⟩ := maxByTime_spec h
  rw [List.mem_filter, wavePred_iff] at hmem
  obtain ⟨hw, hbid, hlo, hhi, hne⟩ := hmem
  refine ⟨hw, hbid, hlo, hhi, hne, fun x hx h1 h2 h3 h4 => ?_⟩
  exact hmax x (List.mem_filter.mpr ⟨hx, (wavePred_iff bid lo hi x).mpr ⟨h1, h2, h3, h4⟩⟩)

lemma latestRowFor_some_spec {store : List Row} {bid : String} {r : Row}
    (h : latestRowFor store bid = some r) :
    r ∈ store ∧ r.buoy_id = bid ∧
      ∀ x ∈ store, x.buoy_id = bid → x.observation_time ≤ r.observation_time := by
  obtain ⟨hmem, hmax⟩ := maxByTime_spec h
  rw [List.mem_filter] at hmem
  obtain ⟨hr, hbid⟩ := hmem
  refine ⟨hr, by simpa using hbid, fun x hx h1 => ?_⟩
  exact hmax x (List.mem_filter.mpr ⟨hx, by simpa using h1⟩)

/-! ## Snapshot-object lookup lemmas -/

lemma lookup_fm_notmem (names : List String) (g : String → Option ℚ)
    (F : String → ℚ → Val) {f : String} (hf : f ∉ names) :
    (names.filterMap (fun n => (g n).map (fun v => (n, F n v)))).lookup f
      = none := by
  induction names with
  | nil => rfl
  | cons n rest ih =>
    have hfn : (f == n) = false := by
      have : f ≠ n := fun hc => hf (hc ▸ List.mem_cons_self _ _)
      simpa using this
    have hrest : f ∉ rest := fun hr => hf (List.mem_cons_of_mem _ hr)
    rcases hn : g n with _ | v
    · have hcons : (n :: rest).filterMap (fun n => (g n).map (fun v => (n, F n v)))
          = rest.filterMap (fun n => (g n).map (fun v => (n, F n v))) :=
        List.filterMap_cons_none (by simp [hn])
      rw [hcons]
      exact ih hrest
    · have hcons : (n :: rest).filterMap (fun n => (g n).map (fun v => (n, F n v)))
          = (n, F n v) :: rest.filterMap (fun n => (g n).map (fun v => (n, F n v))) :=
        List.filterMap_cons_some (by simp [hn])
      rw [hcons]
      simp only [List.lookup, hfn]
      exact ih hrest

lemma lookup_fm_mem (names : List String) (g : String → Option ℚ)
    (F : String → ℚ → Val) {f : String} (hnd : names.Nodup) (hf : f ∈ names) :
    (names.filterMap (fun n => (g n).map (fun v => (n, F n v)))).lookup f
      = (g f).map (F f) := by
  induction names with
  | nil => cases hf
  | cons n rest ih =>
    obtain ⟨hn_rest, hnd_rest⟩ := List.nodup_cons.mp hnd
    rcases List.mem_cons.mp hf with rfl | hf2
    · rcases hn : g f with _ | v
      · have hcons : (f :: rest).filterMap (fun n => (g n).map (fun v => (n, F n v)))
            = rest.filterMap (fun n => (g n).map (fun v => (n, F n v))) :=
          List.filterMap_cons_none (by simp [hn])
        rw [hcons, lookup_fm_notmem rest g F hn_rest]
        simp [hn]
      · have hcons : (f :: rest).filterMap (fun n => (g n).map (fun v => (n, F n v)))
            = (f, F f v) :: rest.filterMap (fun n => (g n).map (fun v => (n, F n v))) :=
          List.filterMap_cons_some (by simp [hn])
        rw [hcons]
        simp [List.lookup, hn]
    · have hfn : (f == n) = false := by
        have : f ≠ n := fun hc => hn_rest (hc ▸ hf2)
        simpa using this
      rcases hn : g n with _ | v
      · have hcons : (n :: rest).filterMap (fun n => (g n).map (fun v => (n, F n v)))
            = rest.filterMap (fun n => (g n).map (fun v => (n, F n v))) :=
          List.filterMap_cons_none (by simp [hn])
        rw [hcons]
        exact ih hnd_rest hf2
      · have hcons : (n :: rest).filterMap (fun n => (g n).map (fun v => (n, F n v)))
            = (n, F n v) :: rest.filterMap (fun n => (g n).map (fun v => (n, F n v))) :=
          List.filterMap_cons_some (by simp [hn])
        rw [hcons]
        simp only [List.lookup, hfn]
        exact ih hnd_rest hf2

lemma wave_not_realtime : ∀ g ∈ WAVE_FIELDS, g ∉ REALTIME_FIELDS := by decide

lemma wave_not_fixed_keys : ∀ g ∈ WAVE_FIELDS,
    g ≠ "name" ∧ g ≠ "observation_time" ∧ g ≠ "wave_observation_time" ∧
    g ≠ "wind_direction_cardinal" ∧ g ≠ "wave_direction_peak_cardinal" := by
  decide

lemma wave_fields_nodup : WAVE_FIELDS.Nodup := by decide

lemma lookup_realtimeFields_notmem (k2k : ℚ → ℚ) (r : Row) {f : String}
    (hf : f ∉ REALTIME_FIELDS) : (realtimeFields k2k r).lookup f = none :=
  lookup_fm_notmem REALTIME_FIELDS (getField r)
    (fun n v => Val.num (if n = "wind_speed" ∨ n = "wind_gust" then k2k v else v)) hf

lemma lookup_waveFields_mem (w : Row) {f : String} (hf : f ∈ WAVE_FIELDS) :
    (waveFields w).lookup f = (getField w f).map Val.num :=
  lookup_fm_mem WAVE_FIELDS (getField w) (fun _ v => Val.num v)
    wave_fields_nodup hf

lemma lookup_snapBase_wave (k2k : ℚ → ℚ) (disp : String) (r : Row) {f : String}
    (hf : f ∈ WAVE_FIELDS) : (snapBase k2k disp r).lookup f = none := by
  obtain ⟨h1, h2, _, _, _⟩ := wave_not_fixed_keys f hf
  have hb1 : (f == "name") = false := by simpa using h1
  have hb2 : (f == "observation_time") = false := by simpa using h2
  simp only [snapBase, List.cons_append, List.nil_append, List.lookup, hb1, hb2]
  exact lookup_realtimeFields_notmem k2k r (wave_not_realtime f hf)

lemma lookup_cardinalEntries_wave (j : List (String × Val)) {f : String}
    (hf : f ∈ WAVE_FIELDS) : (cardinalEntries j).lookup f = none := by
  obtain ⟨_, _, _, h4, h5⟩ := wave_not_fixed_keys f hf
  have hb4 : (f == "wind_direction_cardinal") = false := by simpa using h4
  have hb5 : (f == "wave_direction_peak_cardinal") = false := by simpa using h5
  unfold cardinalEntries
  rcases j.lookup "wind_direction" with _ | v
  · rcases j.lookup "wave_direction_peak" with _ | u
    · rfl
    · cases u <;> simp [List.lookup, hb4, hb5]
  · rcases j.lookup "wave_direction_peak" with _ | u
    · cases v <;> simp [List.lookup, hb4, hb5]
    · cases v <;> cases u <;> simp [List.lookup, hb4, hb5]

lemma lookup_waveTimePart (rt wt : Int) {f : String} (hf : f ∈ WAVE_FIELDS) :
    (if wt ≠ rt then [("wave_observation_time", Val.time wt)] else []).lookup f
      = none := by
  obtain ⟨_, _, h3, _, _⟩ := wave_not_fixed_keys f hf
  have hb3 : (f == "wave_observation_time") = false := by simpa using h3
  split <;> simp [List.lookup, hb3]

lemma snapJson_lookup_of_waveRow_none {k2k : ℚ → ℚ} {store : List Row}
    {bid disp : String} {r : Row} {f : String}
    (hw : waveRowFor store bid (r.observation_time - 3600) r.observation_time
      = none)
    (hf : f ∈ WAVE_FIELDS) :
    (snapJson k2k store bid disp r).lookup f = none := by
  unfold snapJson
  rw [hw]
  simp only [snapWithWave]
  rw [List.lookup_append, lookup_snapBase_wave k2k disp r hf,
    lookup_cardinalEntries_wave _ hf]
  rfl

lemma snapJson_lookup_of_waveRow_some {k2k : ℚ → ℚ} {store : List Row}
    {bid disp : String} {r w : Row} {f : String}
    (hw : waveRowFor store bid (r.observation_time - 3600) r.observation_time
      = some w)
    (hf : f ∈ WAVE_FIELDS) :
    (snapJson k2k store bid disp r).lookup f = (getField w f).map Val.num := by
  unfold snapJson
  rw [hw]
  simp only [snapWithWave]
  rw [List.lookup_append, List.lookup_append, List.lookup_append,
    lookup_snapBase_wave k2k disp r hf,
    lookup_waveTimePart r.observation_time w.observation_time hf,
    lookup_waveFields_mem w hf, lookup_cardinalEntries_wave _ hf,
    Option.or_none]
  rfl

/-! ## Claim C4 -/

/-- C4: in the snapshot export, the wave part is taken from the most recent
observation with a non-null `wave_height_sig` whose time lies in
`[T − 3600, T]`, where `T` is the station's most recent observation time:
the wave selection is empty exactly when no stored row of the station in
that window carries a non-null `wave_height_sig`, in which case every wave
field is omitted from the object; otherwise the selected row lies in the
window, is the most recent such row, and its significant wave height is
emitted. -/
theorem c4_wave_freshness (k2k : ℚ → ℚ) (store : List Row) (bid disp : String)
    (r : Row) (hl : latestRowFor store bid = some r) :
    ∃ j, buoySnapshot k2k store bid disp = some j ∧
      (waveRowFor store bid (r.observation_time - 3600) r.observation_time = none
        ↔ ∀ x ∈ store, x.buoy_id = bid →
            r.observation_time - 3600 ≤ x.observation_time →
            x.observation_time ≤ r.observation_time →
            x.wave_height_sig = none) ∧
      (waveRowFor store bid (r.observation_time - 3600) r.observation_time = none
        → ∀ f ∈ WAVE_FIELDS, j.lookup f = none) ∧
      (∀ w, waveRowFor store bid (r.observation_time - 3600) r.observation_time
          = some w →
        w ∈ store ∧ w.buoy_id = bid ∧
        r.observation_time - 3600 ≤ w.observation_time ∧
        w.observation_time ≤ r.observation_time ∧
        w.wave_height_sig ≠ none ∧
        (∀ x ∈ store, x.buoy_id = bid →
          r.observation_time - 3600 ≤ x.observation_time →
          x.observation_time ≤ r.observation_time → x.wave_height_sig ≠ none →
          x.observation_time ≤ w.observation_time) ∧
        j.lookup "wave_height_sig" = w.wave_height_sig.map Val.num) := by
  refine ⟨snapJson k2k store bid disp r, ?_, ?_, ?_, ?_⟩
  · unfold buoySnapshot
    rw [hl]
  · exact waveRowFor_none_iff store bid _ _
  · intro hw f hf
    exact snapJson_lookup_of_waveRow_none hw hf
  · intro w hw
    obtain ⟨h1, h2, h3, h4, h5, h6⟩ := waveRowFor_some_spec hw
    refine ⟨h1, h2, h3, h4, h5, h6, ?_⟩
    rw [snapJson_lookup_of_waveRow_some hw (by decide)]
    rfl

/-- C4 witness: with the newest wave sample 61 minutes older than the newest
wind sample the snapshot omits `wave_height_sig`; at 59 minutes it includes
it. -/
theorem c4_wave_freshness_witness :
    (∃ j, buoySnapshot id sampleStoreStale "4600146" "Halibut Bank" = some j ∧
      j.lookup "wave_height_sig" = none) ∧
    (∃ j, buoySnapshot id sampleStoreFresh "4600146" "Halibut Bank" = some j ∧
      j.lookup "wave_height_sig" = some (Val.num 2)) := by
  constructor
  · obtain ⟨j, hj, _, hnone, _⟩ := c4_wave_freshness id sampleStoreStale
      "4600146" "Halibut Bank" sampleWindRow (by decide)
    exact ⟨j, hj, hnone (by decide) "wave_height_sig" (by decide)⟩
  · obtain ⟨j, hj, _, _, hsome⟩ := c4_wave_freshness id sampleStoreFresh
      "4600146" "Halibut Bank" sampleWindRow (by decide)
    obtain ⟨_, _, _, _, _, _, hlook⟩ := hsome sampleWaveFresh (by decide)
    exact ⟨j, hj, hlook.trans (by decide)⟩

/-! ## Claim C10 -/

/-- C10: a station's wave fields appear in the snapshot only when some stored
row inside the one-hour window has a non-null `wave_height_sig`: if every
in-window row has a null `wave_height_sig` then no wave field is emitted —
even if such rows carry other wave metrics — and, within the selected wave
row, any individual wave column that is null is omitted from the object
rather than emitted as a null. -/
theorem c10_wave_null_columns (k2k : ℚ → ℚ) (store : List Row)
    (bid disp : String) (r : Row) (hl : latestRowFor store bid = some r) :
    ∃ j, buoySnapshot k2k store bid disp = some j ∧
      ((∀ x ∈ store, x.buoy_id = bid →
          r.observation_time - 3600 ≤ x.observation_time →
          x.observation_time ≤ r.observation_time → x.wave_height_sig = none) →
        ∀ f ∈ WAVE_FIELDS, j.lookup f = none) ∧
      (∀ w, waveRowFor store bid (r.observation_time - 3600) r.observation_time
          = some w →
        ∀ f ∈ WAVE_FIELDS, getField w f = none → j.lookup f = none) := by
  refine ⟨snapJson k2k store bid disp r, ?_, ?_, ?_⟩
  · unfold buoySnapshot
    rw [hl]
  · intro hall f hf
    exact snapJson_lookup_of_waveRow_none
      ((waveRowFor_none_iff store bid _ _).mpr hall) hf
  · intro w hw f hf hnull
    rw [snapJson_lookup_of_waveRow_some hw hf, hnull]
    rfl

/-- C10 witness: an in-window row with `wave_period_peak` present but
`wave_height_sig` null supplies no wave fields at all; and in the selected
wave row the null `wave_direction_avg` column is omitted. -/
theorem c10_wave_null_columns_witness :
    (∃ j, buoySnapshot id sampleStoreNullSig "4600146" "Halibut Bank" = some j ∧
      j.lookup "wave_period_peak" = none) ∧
    (∃ j, buoySnapshot id sampleStoreFresh "4600146" "Halibut Bank" = some j ∧
      j.lookup "wave_direction_avg" = none) := by
  constructor
  · obtain ⟨j, hj, hnone, _⟩ := c10_wave_null_columns id sampleStoreNullSig
      "4600146" "Halibut Bank" sampleWindRow (by decide)
    exact ⟨j, hj, hnone (by decide) "wave_period_peak" (by decide)⟩
  · obtain ⟨j, hj, _, hsome⟩ := c10_wave_null_columns id sampleStoreFresh
      "4600146" "Halibut Bank" sampleWindRow (by decide)
    exact ⟨j, hj, hsome sampleWaveFresh (by decide) "wave_direction_avg"
      (by decide) (by decide)⟩

/-! ## Claim C5 -/

lemma seriesRows_mem (store : List Row) (bid metric : String) (cutoff : Int)
    (x : Row) :
    x ∈ seriesRows store bid metric cutoff ↔
      x ∈ store ∧ tsPred bid metric cutoff x = true := by
  rw [seriesRows, List.mem_insertionSort, List.mem_filter]

lemma tsPred_iff_high {bid : String} (hb : highFreq bid = true)
    (metric : String) (cutoff : Int) (x : Row) :
    tsPred bid metric cutoff x = true ↔
      x.buoy_id = bid ∧ cutoff ≤ x.observation_time ∧
        (getField x metric).isSome ∧ x.observation_time % 3600 = 0 := by
  simp [tsPred, hb, and_assoc]

lemma tsPred_iff_std {bid : String} (hb : highFreq bid = false)
    (metric : String) (cutoff : Int) (x : Row) :
    tsPred bid metric cutoff x = true ↔
      x.buoy_id = bid ∧ cutoff ≤ x.observation_time ∧
        (getField x metric).isSome := by
  simp [tsPred, hb, and_assoc]

lemma seriesFor_times (k2k rnd2 : ℚ → ℚ) (store : List Row)
    (bid metric : String) (cutoff : Int) :
    (seriesFor k2k rnd2 store bid metric cutoff).map Prod.fst
      = (seriesRows store bid metric cutoff).map
          (fun r => r.observation_time) := by
  rw [seriesFor, List.map_map]
  rfl

/-- C5: in the timeseries export, a high-frequency station (`4600304` or
`4600303`) emits a timestamp iff some stored row of that station carries the
metric non-null at that time, the time is inside the trailing window
(`cutoff ≤ t`), and the epoch second is divisible by 3600; a
standard-cadence station emits a timestamp iff such a row exists in the
window, with no divisibility restriction; and the emitted series is ordered
by ascending timestamp. -/
theorem c5_downsampling (k2k rnd2 : ℚ → ℚ) (store : List Row)
    (bid metric : String) (cutoff : Int) :
    (highFreq bid = true →
      ∀ t : Int,
        t ∈ (seriesFor k2k rnd2 store bid metric cutoff).map Prod.fst ↔
          ∃ x ∈ store, x.buoy_id = bid ∧ x.observation_time = t ∧
            (getField x metric).isSome ∧ cutoff ≤ t ∧ (3600 : Int) ∣ t) ∧
    (highFreq bid = false →
      ∀ t : Int,
        t ∈ (seriesFor k2k rnd2 store bid metric cutoff).map Prod.fst ↔
          ∃ x ∈ store, x.buoy_id = bid ∧ x.observation_time = t ∧
            (getField x metric).isSome ∧ cutoff ≤ t) ∧
    ((seriesFor k2k rnd2 store bid metric cutoff).map Prod.fst).Sorted
      (· ≤ ·) := by
  refine ⟨?_, ?_, ?_⟩
  · intro hb t
    rw [seriesFor_times, List.mem_map]
    constructor
    · rintro ⟨x, hx, rfl⟩
      rw [seriesRows_mem] at hx
      obtain ⟨hxs, hp⟩ := hx
      obtain ⟨h1, h2, h3, h4⟩ := (tsPred_iff_high hb metric cutoff x).mp hp
      exact ⟨x, hxs, h1, rfl, h3, h2, Int.dvd_of_emod_eq_zero h4⟩
    · rintro ⟨x, hxs, h1, rfl, h3, h2, h4⟩
      refine ⟨x, ?_, rfl⟩
      rw [seriesRows_mem]
      exact ⟨hxs, (tsPred_iff_high hb metric cutoff x).mpr
        ⟨h1, h2, h3, Int.emod_eq_zero_of_dvd h4⟩⟩
  · intro hb t
    rw [seriesFor_times, List.mem_map]
    constructor
    · rintro ⟨x, hx, rfl⟩
      rw [seriesRows_mem] at hx
      obtain ⟨hxs, hp⟩ := hx
      obtain ⟨h1, h2, h3⟩ := (tsPred_iff_std hb metric cutoff x).mp hp
      exact ⟨x, hxs, h1, rfl, h3, h2⟩
    · rintro ⟨x, hxs, h1, rfl, h3, h2⟩
      refine ⟨x, ?_, rfl⟩
      rw [seriesRows_mem]
      exact ⟨hxs, (tsPred_iff_std hb metric cutoff x).mpr ⟨h1, h2, h3⟩⟩
  · rw [seriesFor_times]
    have hs : (seriesRows store bid metric cutoff).Sorted timeLE :=
      List.sorted_insertionSort timeLE _
    rw [List.Sorted, List.pairwise_map]
    exact hs

/-- C5 witness: for high-frequency station 4600304, the minute-granularity
sample at 7260 is dropped and the hour-boundary sample at 7200 is kept; the
standard station 4600146 emits the 7260 sample. -/
theorem c5_downsampling_witness :
    (7200 : Int) ∈
      (seriesFor id id sampleStoreHF "4600304" "air_temp" 0).map Prod.fst ∧
    (7260 : Int) ∉
      (seriesFor id id sampleStoreHF "4600304" "air_temp" 0).map Prod.fst ∧
    (7260 : Int) ∈
      (seriesFor id id sampleStoreStd "4600146" "air_temp" 0).map Prod.fst := by
  refine ⟨?_, ?_, ?_⟩
  · exact ((c5_downsampling id id sampleStoreHF "4600304" "air_temp" 0).1
      rfl 7200).mpr
      ⟨{ buoy_id := "4600304", observation_time := 7200, air_temp := some 3 },
        by decide, rfl, rfl, by decide, by decide, by decide⟩
  · intro hmem
    obtain ⟨x, hxs, h1, h2, h3, h4, h5⟩ :=
      ((c5_downsampling id id sampleStoreHF "4600304" "air_temp" 0).1
        rfl 7260).mp hmem
    exact absurd h5 (by decide)
  · exact ((c5_downsampling id id sampleStoreStd "4600146" "air_temp" 0).2.1
      rfl 7260).mpr
      ⟨{ buoy_id := "4600146", observation_time := 7260, air_temp := some 4 },
        by decide, rfl, rfl, by decide, by decide⟩
